import Mathlib

/-!
Shallow embedding of `src/lambda/lambda_function.py` from the
`spacex_fullstack` repository: a fetch–normalize–upsert pipeline that
stores SpaceX launch records in a key-value table and serves a summary
on manual invocation.

Raw records, stored items and response bodies are JSON-like Python
values, modelled by the `Json` inductive below.  Python dictionaries are
association lists with unique keys; `dict.get` is `getD`/`getOpt`.
Operations that can raise a Python exception return `Except PyErr`.
The DynamoDB table is a list of (key, item) pairs in scan order; faults
of the external storage client (get_item / put_item / scan failures) are
injected through a `Faults` record so that the error-handling paths of
the source are reachable in the model.
-/

/-- Python/JSON values as manipulated by the lambda: `None`, booleans,
integers, strings, lists and dictionaries (association lists). -/
inductive Json where
  | null : Json
  | bool : Bool → Json
  | int : Int → Json
  | str : String → Json
  | arr : List Json → Json
  | obj : List (String × Json) → Json
deriving Repr

mutual

/-- Boolean equality on `Json` values. -/
def Json.beq : Json → Json → Bool
  | .null, .null => true
  | .bool a, .bool b => a == b
  | .int a, .int b => a == b
  | .str a, .str b => a == b
  | .arr xs, .arr ys => Json.beqList xs ys
  | .obj xs, .obj ys => Json.beqObj xs ys
  | _, _ => false

/-- Boolean equality on lists of `Json` values. -/
def Json.beqList : List Json → List Json → Bool
  | [], [] => true
  | x :: xs, y :: ys => Json.beq x y && Json.beqList xs ys
  | _, _ => false

/-- Boolean equality on association lists of `Json` values. -/
def Json.beqObj : List (String × Json) → List (String × Json) → Bool
  | [], [] => true
  | (k, v) :: xs, (l, w) :: ys => k == l && Json.beq v w && Json.beqObj xs ys
  | _, _ => false

end

mutual

def Json.eq_of_beq : ∀ a b : Json, Json.beq a b = true → a = b
  | .null, b, h => by cases b <;> simp_all [Json.beq]
  | .bool a, b, h => by cases b <;> simp_all [Json.beq]
  | .int a, b, h => by cases b <;> simp_all [Json.beq]
  | .str a, b, h => by cases b <;> simp_all [Json.beq]
  | .arr xs, b, h => by
      cases b <;> simp_all [Json.beq]
      exact Json.eqList_of_beqList xs _ h
  | .obj xs, b, h => by
      cases b <;> simp_all [Json.beq]
      exact Json.eqObj_of_beqObj xs _ h

def Json.eqList_of_beqList : ∀ xs ys : List Json, Json.beqList xs ys = true → xs = ys
  | [], [], _ => rfl
  | [], _ :: _, h => by simp [Json.beqList] at h
  | _ :: _, [], h => by simp [Json.beqList] at h
  | x :: xs, y :: ys, h => by
      rw [Json.beqList, Bool.and_eq_true] at h
      rw [Json.eq_of_beq x y h.1, Json.eqList_of_beqList xs ys h.2]

def Json.eqObj_of_beqObj :
    ∀ xs ys : List (String × Json), Json.beqObj xs ys = true → xs = ys
  | [], [], _ => rfl
  | [], _ :: _, h => by simp [Json.beqObj] at h
  | _ :: _, [], h => by simp [Json.beqObj] at h
  | (k, v) :: xs, (l, w) :: ys, h => by
      rw [Json.beqObj, Bool.and_eq_true, Bool.and_eq_true] at h
      obtain ⟨⟨hk, hv⟩, hrest⟩ := h
      have hkl : k = l := by simpa using hk
      rw [hkl, Json.eq_of_beq v w hv, Json.eqObj_of_beqObj xs ys hrest]

end

mutual

def Json.beq_refl : ∀ a : Json, Json.beq a a = true
  | .null => rfl
  | .bool a => by simp [Json.beq]
  | .int a => by simp [Json.beq]
  | .str a => by simp [Json.beq]
  | .arr xs => by rw [Json.beq]; exact Json.beqList_refl xs
  | .obj xs => by rw [Json.beq]; exact Json.beqObj_refl xs

def Json.beqList_refl : ∀ xs : List Json, Json.beqList xs xs = true
  | [] => rfl
  | x :: xs => by
      rw [Json.beqList, Bool.and_eq_true]
      exact ⟨Json.beq_refl x, Json.beqList_refl xs⟩

def Json.beqObj_refl : ∀ xs : List (String × Json), Json.beqObj xs xs = true
  | [] => rfl
  | (k, v) :: xs => by
      rw [Json.beqObj, Bool.and_eq_true, Bool.and_eq_true]
      exact ⟨⟨by simp, Json.beq_refl v⟩, Json.beqObj_refl xs⟩

end

instance : DecidableEq Json := fun a b =>
  if h : Json.beq a b = true then .isTrue (Json.eq_of_beq a b h)
  else .isFalse (fun he => h (he ▸ Json.beq_refl a))

/-- A Python dictionary with string keys, as used for raw launch records,
events and stored items. -/
abbrev Obj := List (String × Json)

/-- `d.get(k)` on a dictionary: the value bound to `k`, if any. -/
def getOpt (o : Obj) (k : String) : Option Json :=
  (o.find? (fun kv => kv.1 = k)).map (fun kv => kv.2)

/-- `d.get(k, default)` on a dictionary. -/
def getD (o : Obj) (k : String) (dflt : Json) : Json :=
  (getOpt o k).getD dflt

/-- Python truthiness of a JSON value (`bool(v)`). -/
def truthy : Json → Bool
  | .null => false
  | .bool b => b
  | .int n => n ≠ 0
  | .str s => s ≠ ""
  | .arr xs => !xs.isEmpty
  | .obj kvs => !kvs.isEmpty

/-- Python exceptions that the modelled code can raise. -/
inductive PyErr where
  | attributeError : PyErr
  | typeError : PyErr
  | valueError : PyErr
  | keyError : PyErr
  | storageError : PyErr
deriving DecidableEq, Repr

/-- `value.get(k, default)` where `value` need not be a dictionary:
raises `AttributeError` unless `value` is a dict (as in
`launch.get('rocket', {}).get('rocket_name', 'Unknown')` when the
`rocket` field is not a mapping). -/
def jgetD : Json → String → Json → Except PyErr Json
  | .obj kvs, k, dflt => .ok (getD kvs k dflt)
  | _, _, _ => .error .attributeError

/-- Python iteration `for x in v`: lists yield their elements, strings
their characters, dicts their keys; other values raise `TypeError`. -/
def pyIter : Json → Except PyErr (List Json)
  | .arr xs => .ok xs
  | .str s => .ok (s.toList.map (fun c => .str (String.mk [c])))
  | .obj kvs => .ok (kvs.map (fun kv => .str kv.1))
  | _ => .error .typeError

mutual

/-- Python `str()` of a JSON value; containers are rendered with their
elements' representations (no record in this development ever renders a
container with `str`, only scalars). -/
def pyStr : Json → String
  | .null => "None"
  | .bool true => "True"
  | .bool false => "False"
  | .int n => toString n
  | .str s => s
  | .arr xs => "[" ++ pyStrList xs ++ "]"
  | .obj kvs => "\x7b" ++ pyStrObj kvs ++ "\x7d"

/-- Renders the elements of a JSON list, comma-separated. -/
def pyStrList : List Json → String
  | [] => ""
  | [x] => pyStr x
  | x :: xs => pyStr x ++ ", " ++ pyStrList xs

/-- Renders the entries of a JSON dictionary, comma-separated. -/
def pyStrObj : List (String × Json) → String
  | [] => ""
  | [(k, v)] => k ++ ": " ++ pyStr v
  | (k, v) :: kvs => k ++ ": " ++ pyStr v ++ ", " ++ pyStrObj kvs

end

/-- Python `int(v)`: identity on ints, 0/1 on booleans, parse of a
(possibly signed) digit string; `None` and containers raise `TypeError`,
a non-numeric string raises `ValueError`. -/
def pyInt : Json → Except PyErr Int
  | .int n => .ok n
  | .bool b => .ok (if b then 1 else 0)
  | .str s =>
      let t := s.trim
      let t := if t.startsWith "+" then t.drop 1 else t
      match t.toInt? with
      | some n => .ok n
      | none => .error .valueError
  | _ => .error .typeError

/-- `determine_launch_status` (lambda_function.py:176-187): classify a
raw launch by first-match priority: truthy `upcoming` flag, then the
`launch_success` flag compared by identity to `True` / `False`. -/
def determine_launch_status (launch : Obj) : String :=
  if truthy (getD launch "upcoming" (.bool false)) then "upcoming"
  else if getD launch "launch_success" .null = .bool true then "success"
  else if getD launch "launch_success" .null = .bool false then "failed"
  else "unknown"

/-- One processed payload entry of `process_payloads`
(lambda_function.py:195-206); raises unless the payload is a dict. -/
def process_payload (payload : Json) : Except PyErr Json := do
  let pid ← jgetD payload "payload_id" (.str "")
  let ptype ← jgetD payload "payload_type" (.str "")
  let mkg ← jgetD payload "payload_mass_kg" .null
  let mlbs ← jgetD payload "payload_mass_lbs" .null
  let orbit ← jgetD payload "orbit" (.str "")
  let customers ← jgetD payload "customers" (.arr [])
  let manufacturer ← jgetD payload "manufacturer" (.str "")
  let nationality ← jgetD payload "nationality" (.str "")
  return .obj [("payload_id", pid), ("payload_type", ptype),
    ("payload_mass_kg", mkg), ("payload_mass_lbs", mlbs),
    ("orbit", orbit), ("customers", customers),
    ("manufacturer", manufacturer), ("nationality", nationality)]

/-- Run a fallible function over a list, stopping at the first raised
exception (the semantics of a Python `for` loop building a list). -/
def mapExcept (g : α → Except PyErr β) : List α → Except PyErr (List β)
  | [] => .ok []
  | x :: xs => do
      let y ← g x
      let ys ← mapExcept g xs
      return y :: ys

/-- `process_payloads` (lambda_function.py:189-208): iterate the payloads
value and process each entry. -/
def process_payloads (payloads : Json) : Except PyErr Json := do
  let items ← pyIter payloads
  let out ← mapExcept process_payload items
  return .arr out

/-- `convert_to_dynamodb_format` (lambda_function.py:210-214):
`json.loads(json.dumps(data, default=str), parse_float=Decimal)`.
On the JSON-only values of this model (no floats, no exotic types) the
round trip is the identity. -/
def convert_to_dynamodb_format (data : Obj) : Obj := data

/-- `process_launch_data` (lambda_function.py:130-174), the Normalizer:
builds the canonical record from a raw launch.  `now` stands for
`datetime.now(timezone.utc).isoformat()`.  The `.get` calls on nested
values raise `AttributeError` when the nested value is not a dict, so
the function is `Except`-valued. -/
def process_launch_data (now : String) (launch : Obj) : Except PyErr Obj := do
  let launch_id := pyStr (getD launch "flight_number" (.str ""))
  let status := determine_launch_status launch
  let rocket_info := getD launch "rocket" (.obj [])
  let rocket_name ← jgetD rocket_info "rocket_name" (.str "Unknown")
  let payloads ← process_payloads (getD launch "payloads" (.arr []))
  let launchpad := getD launch "launch_site" (.obj [])
  let site_default ← jgetD launchpad "site_name" (.str "Unknown")
  -- `launchpad_name` is computed by the source but not stored; it still
  -- participates in the failure behaviour.
  let _launchpad_name ← jgetD launchpad "site_name_long" site_default
  let rocket_id ← jgetD rocket_info "rocket_id" (.str "")
  let rocket_name_inner ← jgetD rocket_info "rocket_name" (.str "")
  let rocket_type ← jgetD rocket_info "rocket_type" (.str "")
  let processed_data : Obj :=
    [("launch_id", .str launch_id),
     ("flight_number", getD launch "flight_number" .null),
     ("mission_name", getD launch "mission_name" (.str "Unknown Mission")),
     ("rocket_name", rocket_name),
     ("launch_date", getD launch "launch_date_utc" (.str "")),
     ("launch_date_local", getD launch "launch_date_local" (.str "")),
     ("status", .str status),
     ("launch_success", getD launch "launch_success" .null),
     ("upcoming", getD launch "upcoming" (.bool false)),
     ("details", getD launch "details" (.str "")),
     ("rocket", .obj [("rocket_id", rocket_id),
                      ("rocket_name", rocket_name_inner),
                      ("rocket_type", rocket_type)]),
     ("payloads", payloads),
     ("last_updated", .str now),
     ("api_version", .str "v3")]
  return convert_to_dynamodb_format processed_data

/-- The DynamoDB table contents: items in scan order, each stored under
its `launch_id` key. -/
abbrev Storage := List (Json × Obj)

/-- Injectable failures of the external storage client, so that the
error-handling paths of the source are reachable in the model:
`getFails k` makes `table.get_item` raise for key `k`, `putFails item`
makes `table.put_item` raise for that item, `scanFails` makes
`table.scan` raise. -/
structure Faults where
  getFails : Json → Bool
  putFails : Obj → Bool
  scanFails : Bool

/-- A fault-free storage client. -/
def noFaults : Faults := ⟨fun _ => false, fun _ => false, false⟩

/-- `table.put_item(Item=item)`: full replace of the item stored under
`k`, keeping its scan position; a fresh key is appended. -/
def putItem : Storage → Json → Obj → Storage
  | [], k, v => [(k, v)]
  | (l, w) :: rest, k, v =>
      if l = k then (k, v) :: rest else (l, w) :: putItem rest k v

/-- `table.get_item(Key={'launch_id': k})`: the stored item, if any. -/
def getItem (st : Storage) (k : Json) : Option Obj :=
  (st.find? (fun kv => kv.1 = k)).map (fun kv => kv.2)

/-- `upsert_launch_to_dynamodb` (lambda_function.py:216-242), the
Storage Upsert Client: read-check (fail-open to "not present" when the
read itself raises), unconditional `put_item`, then report `created` or
`updated`; a `put_item` failure propagates to the caller. -/
def upsert_launch_to_dynamodb (f : Faults) (st : Storage) (launch_data : Obj) :
    Except PyErr (String × Storage) := do
  let launch_id ← match getOpt launch_data "launch_id" with
    | some v => Except.ok v
    | none => Except.error PyErr.keyError
  let item_exists := if f.getFails launch_id then false else (getItem st launch_id).isSome
  if f.putFails launch_data then Except.error PyErr.storageError
  else
    return (if item_exists then "updated" else "created", putItem st launch_id launch_data)

/-- The counters returned by the Orchestrator. -/
structure RunStats where
  processed : Nat
  created : Nat
  updated : Nat
  errors : Nat
deriving DecidableEq, Repr

/-- The body of the Orchestrator's loop (lambda_function.py:111-116):
normalize one record and upsert it, propagating either step's
exception. -/
def pipeline_step (f : Faults) (now : String) (st : Storage) (launch : Obj) :
    Except PyErr (String × Storage) := do
  let processed_launch ← process_launch_data now launch
  upsert_launch_to_dynamodb f st processed_launch

/-- `process_and_save_launches` (lambda_function.py:99-128), the
Pipeline Orchestrator: normalize and upsert each record in order; any
exception from a record's processing or write is caught, counted in
`errors`, and the loop continues.  Returns the counters and the final
table contents. -/
def process_and_save_launches (f : Faults) (now : String) :
    List Obj → Storage → RunStats × Storage
  | [], st => (⟨0, 0, 0, 0⟩, st)
  | launch :: rest, st =>
      match pipeline_step f now st launch with
      | .error _ =>
          let (s, stFin) := process_and_save_launches f now rest st
          ({s with errors := s.errors + 1}, stFin)
      | .ok (save_result, st1) =>
          let (s, stFin) := process_and_save_launches f now rest st1
          ({s with
              processed := s.processed + 1,
              created := if save_result = "created" then s.created + 1 else s.created,
              updated := if save_result = "updated" then s.updated + 1 else s.updated},
           stFin)

/-- The sort key used by the summary (lambda_function.py:265):
`int(x.get('flight_number', 0)) if x.get('flight_number') else 0`. -/
def flight_sort_key (x : Obj) : Except PyErr Int :=
  if truthy (getD x "flight_number" .null) then pyInt (getD x "flight_number" (.int 0))
  else Except.ok 0

/-- Stable insert for a descending sort by the first component: the new
pair goes after every earlier pair with a strictly greater key and
before pairs with an equal or smaller key. -/
def insertDesc (p : Int × Obj) : List (Int × Obj) → List (Int × Obj)
  | [] => [p]
  | q :: qs => if p.1 < q.1 then q :: insertDesc p qs else p :: q :: qs

/-- Stable descending sort by the first component, modelling Python
`sorted(items, key=..., reverse=True)`. -/
def sortDesc : List (Int × Obj) → List (Int × Obj)
  | [] => []
  | p :: ps => insertDesc p (sortDesc ps)

/-- One summary entry (lambda_function.py:270-277) built from a stored
item. -/
def summary_entry (item : Obj) : Obj :=
  [("flight_number", .str (pyStr (getD item "flight_number" (.str "")))),
   ("mission_name", getD item "mission_name" (.str "")),
   ("rocket_name", getD item "rocket_name" (.str "")),
   ("launch_date", getD item "launch_date" (.str "")),
   ("status", getD item "status" (.str "")),
   ("last_updated", getD item "last_updated" (.str ""))]

/-- `get_latest_launches_summary` (lambda_function.py:257-283): scan at
most the first 5 items of the table (`table.scan(Limit=5)`), sort them
descending by flight number, and project each to a summary entry.  Any
exception in the block — a scan failure, or `int()` raising on a truthy
non-numeric flight number — is caught and yields `[]`. -/
def get_latest_launches_summary (f : Faults) (st : Storage) : List Obj :=
  if f.scanFails then []
  else
    let items := (st.take 5).map (fun kv => kv.2)
    match mapExcept (fun x => (flight_sort_key x).map (fun k => (k, x))) items with
    | .error _ => []
    | .ok keyed =>
        let sorted_items := (sortDesc keyed).map (fun p => p.2)
        (sorted_items.take 5).map summary_entry

/-- Increment the counter for key `k` in an insertion-ordered counter
dictionary (`stats[...][k] = stats[...].get(k, 0) + 1`). -/
def bumpCount (m : List (Json × Int)) (k : Json) : List (Json × Int) :=
  if (m.find? (fun kv => kv.1 = k)).isSome then
    m.map (fun kv => if kv.1 = k then (kv.1, kv.2 + 1) else kv)
  else m ++ [(k, 1)]

/-- `get_table_stats` (lambda_function.py:285-310): full scan, then
counts grouped by `status` and by `rocket_name`.  A scan failure is
caught and yields the empty dictionary.  Dictionary keys are rendered
with `pyStr` (stored statuses and rocket names are always strings). -/
def get_table_stats (f : Faults) (st : Storage) : Json :=
  if f.scanFails then .obj []
  else
    let items := st.map (fun kv => kv.2)
    let counts := items.foldl
      (fun (acc : List (Json × Int) × List (Json × Int)) item =>
        (bumpCount acc.1 (getD item "status" (.str "unknown")),
         bumpCount acc.2 (getD item "rocket_name" (.str "Unknown")))) ([], [])
    .obj [("total_records", .int (items.length : Int)),
          ("by_status", .obj (counts.1.map (fun kv => (pyStr kv.1, Json.int kv.2)))),
          ("by_rocket", .obj (counts.2.map (fun kv => (pyStr kv.1, Json.int kv.2))))]

/-- The destination table name:
`os.environ.get('DYNAMODB_TABLE_NAME', 'spacex-launches-dev')`; the
environment lookup is outside the model, so the default stands in. -/
def table_name : String := "spacex-launches-dev"

/-- An HTTP-shaped response.  The body is kept as a JSON value; the
source serializes it with `json.dumps(body, default=str)` and attaches
fixed content-type and CORS headers, which no claim inspects. -/
structure HttpResponse where
  statusCode : Int
  body : Json
deriving DecidableEq, Repr

/-- `create_response` (lambda_function.py:244-255). -/
def create_response (status_code : Int) (body : Json) : HttpResponse :=
  ⟨status_code, body⟩

/-- The invocation-mode heuristic (lambda_function.py:28-32): manual if
the trigger carries an HTTP POST method, an explicit manual-test source
marker, or a request body. -/
def is_manual_test (event : Obj) : Bool :=
  getD event "httpMethod" .null = .str "POST" ||
  getD event "source" .null = .str "manual-test" ||
  (getOpt event "body").isSome

/-- `lambda_handler` (lambda_function.py:19-74), the Invocation Handler.
`spacex_data` is the result of `fetch_spacex_launches` (network I/O with
a fail-soft contract: a list, empty on any failure); `now` stands for
the wall clock; `event` is the trigger payload; `st` the initial table
contents.  Returns the response and the final table contents. -/
def lambda_handler (f : Faults) (now : String) (spacex_data : List Obj)
    (event : Obj) (st : Storage) : HttpResponse × Storage :=
  let is_manual_test := is_manual_test event
  if spacex_data.isEmpty then
    (create_response 500 (.str "Error obteniendo datos de SpaceX"), st)
  else
    let (result, st1) := process_and_save_launches f now spacex_data st
    let base : Obj :=
      [("message", .str "Procesamiento exitoso"),
       ("execution_type", .str (if is_manual_test then "manual" else "scheduled")),
       ("timestamp", .str now),
       ("summary", .obj
         [("total_processed", .int (result.processed : Int)),
          ("new_records", .int (result.created : Int)),
          ("updated_records", .int (result.updated : Int)),
          ("errors", .int (result.errors : Int)),
          ("api_endpoint", .str "https://api.spacexdata.com/v3/launches"),
          ("table_name", .str table_name)])]
    let response_body : Obj :=
      if is_manual_test then
        base ++ [("details", .obj
          [("latest_launches", .arr ((get_latest_launches_summary f st1).map Json.obj)),
           ("table_stats", get_table_stats f st1)])]
      else base
    (create_response 200 (.obj response_body), st1)

deriving instance DecidableEq for Except

/-- Whether one record's pipeline step raises; this is independent of the
current storage contents, since the read-check failure is fail-open and
`put_item` faults are keyed on the written item. -/
def step_fails (f : Faults) (now : String) (launch : Obj) : Bool :=
  match process_launch_data now launch with
  | .error _ => true
  | .ok pl =>
      match getOpt pl "launch_id" with
      | none => true
      | some _ => f.putFails pl

/-- The storage key a raw record would be stored under: the `launch_id`
of its normalization, when normalization succeeds. -/
def norm_key (now : String) (launch : Obj) : Option Json :=
  match process_launch_data now launch with
  | .ok pl => getOpt pl "launch_id"
  | .error _ => none

/-- Field access on a JSON value that is a dictionary. -/
def jfield : Json → String → Option Json
  | .obj kvs, k => getOpt kvs k
  | _, _ => none

/-- A minimal raw launch record carrying only a flight number. -/
def rawFlight (n : Int) : Obj := [("flight_number", Json.int n)]

/-- The canonical record obtained by normalizing `rawFlight n` at
wall-clock string `"T"`. -/
def itemFlight (n : Int) : Obj := (process_launch_data "T" (rawFlight n)).toOption.getD []

/-- A six-item table whose sixth item in scan order has the greatest
flight number. -/
def stC1 : Storage :=
  [(.str "1", itemFlight 1), (.str "2", itemFlight 2), (.str "3", itemFlight 3),
   (.str "4", itemFlight 4), (.str "5", itemFlight 5), (.str "100", itemFlight 100)]

/-- A fault configuration whose `put_item` raises exactly on items
stored under key `"2"`. -/
def faultPut2 : Faults :=
  ⟨fun _ => false, fun rec => getOpt rec "launch_id" = some (.str "2"), false⟩

/-- A fault configuration whose `scan` always raises. -/
def faultScan : Faults := ⟨fun _ => false, fun _ => false, true⟩

/-- A fault configuration whose `get_item` always raises. -/
def faultGet : Faults := ⟨fun _ => true, fun _ => false, false⟩

/-- The flight-number-keyed pairing of the first five items of `stC1`,
as built inside the summary before sorting. -/
def keyedC1 : List (Int × Obj) :=
  [(1, itemFlight 1), (2, itemFlight 2), (3, itemFlight 3),
   (4, itemFlight 4), (5, itemFlight 5)]

/-- A raw record with a mission name but no flight number. -/
def rawNoFlight2 : Obj := [("mission_name", Json.str "m")]

/-- The normalization of the empty raw record at wall-clock `"T"`. -/
def itemNoFlight1 : Obj := (process_launch_data "T" []).toOption.getD []

/-- The normalization of `rawNoFlight2` at wall-clock `"T"`. -/
def itemNoFlight2 : Obj := (process_launch_data "T" rawNoFlight2).toOption.getD []

/-! ### Helper lemmas: the storage model -/

theorem getItem_putItem_self (st : Storage) (k : Json) (v : Obj) :
    getItem (putItem st k v) k = some v := by
  induction st with
  | nil => simp [putItem, getItem, List.find?]
  | cons kv rest ih =>
      obtain ⟨l, w⟩ := kv
      by_cases h : l = k
      · simp [putItem, h, getItem, List.find?]
      · simp only [putItem, if_neg h]
        simpa [getItem, List.find?, h] using ih

theorem getItem_putItem_ne (st : Storage) (k l : Json) (v : Obj) (h : l ≠ k) :
    getItem (putItem st k v) l = getItem st l := by
  induction st with
  | nil => simp [putItem, getItem, List.find?, Ne.symm h]
  | cons kv rest ih =>
      obtain ⟨m, w⟩ := kv
      by_cases hm : m = k
      · subst hm
        simp [putItem, getItem, List.find?, Ne.symm h]
      · simp only [putItem, if_neg hm]
        by_cases hl : m = l
        · simp [getItem, List.find?, hl]
        · simpa [getItem, List.find?, hl] using ih

theorem putItem_of_absent (st : Storage) (k : Json) (v : Obj)
    (h : ∀ kv ∈ st, kv.1 ≠ k) : putItem st k v = st ++ [(k, v)] := by
  induction st with
  | nil => simp [putItem]
  | cons kv rest ih =>
      obtain ⟨l, w⟩ := kv
      have hl : l ≠ k := h (l, w) (by simp)
      simp only [putItem, if_neg hl, List.cons_append, List.cons.injEq, true_and]
      exact ih (fun kv hkv => h kv (List.mem_cons_of_mem _ hkv))

theorem filter_putItem_single (st : Storage) (k : Json) (v w : Obj)
    (h : st.filter (fun kv => kv.1 = k) = [(k, w)]) :
    (putItem st k v).filter (fun kv => kv.1 = k) = [(k, v)] := by
  induction st with
  | nil => simp at h
  | cons kv rest ih =>
      obtain ⟨l, u⟩ := kv
      by_cases hl : l = k
      · subst hl
        rw [show putItem ((l, u) :: rest) l v = (l, v) :: rest from by simp [putItem]]
        rw [List.filter_cons_of_pos (by simp)] at h ⊢
        have hrest : rest.filter (fun kv => decide (kv.1 = l)) = [] := by
          simpa using congrArg List.tail h
        simp [hrest]
      · simp only [putItem, if_neg hl]
        rw [List.filter_cons_of_neg (by simp [hl])] at h ⊢
        exact ih h

theorem filter_putItem_absent (st : Storage) (k : Json) (v : Obj)
    (h : st.filter (fun kv => kv.1 = k) = []) :
    (putItem st k v).filter (fun kv => kv.1 = k) = [(k, v)] := by
  have habs : ∀ kv ∈ st, kv.1 ≠ k := by
    intro kv hkv heq
    have : kv ∈ st.filter (fun kv => kv.1 = k) := by
      simp [List.mem_filter, hkv, heq]
    simp [h] at this
  rw [putItem_of_absent st k v habs, List.filter_append, h]
  simp

theorem getItem_of_filter_nil (st : Storage) (k : Json)
    (h : st.filter (fun kv => kv.1 = k) = []) : getItem st k = none := by
  unfold getItem
  rw [List.find?_eq_none.mpr]
  · rfl
  · intro kv hkv
    intro hdec
    have hk : kv.1 = k := by simpa using hdec
    have : kv ∈ st.filter (fun kv => kv.1 = k) := by
      simp [List.mem_filter, hkv, hk]
    simp [h] at this

/-! ### Helper lemmas: the upsert client -/

theorem upsert_eq (f : Faults) (st : Storage) (rec : Obj) (key : Json)
    (hkey : getOpt rec "launch_id" = some key) :
    upsert_launch_to_dynamodb f st rec =
      if f.putFails rec then .error .storageError
      else .ok
        ((if (if f.getFails key then false else (getItem st key).isSome)
          then "updated" else "created"), putItem st key rec) := by
  unfold upsert_launch_to_dynamodb
  rw [hkey]
  rfl

theorem upsert_no_key (f : Faults) (st : Storage) (rec : Obj)
    (hkey : getOpt rec "launch_id" = none) :
    upsert_launch_to_dynamodb f st rec = .error .keyError := by
  unfold upsert_launch_to_dynamodb
  rw [hkey]
  rfl

/-! ### Helper lemmas: the orchestrator -/

theorem pipeline_step_norm_err (f : Faults) (now : String) (st : Storage)
    (launch : Obj) (e : PyErr) (h : process_launch_data now launch = .error e) :
    pipeline_step f now st launch = .error e := by
  simp [pipeline_step, h, Bind.bind, Except.bind]

theorem pipeline_step_norm_ok (f : Faults) (now : String) (st : Storage)
    (launch pl : Obj) (h : process_launch_data now launch = .ok pl) :
    pipeline_step f now st launch = upsert_launch_to_dynamodb f st pl := by
  simp [pipeline_step, h, Bind.bind, Except.bind]

theorem pipeline_step_of_fails (f : Faults) (now : String) (st : Storage)
    (launch : Obj) (h : step_fails f now launch = true) :
    ∃ e, pipeline_step f now st launch = .error e := by
  cases hn : process_launch_data now launch with
  | error e => exact ⟨e, pipeline_step_norm_err f now st launch e hn⟩
  | ok pl =>
      simp only [step_fails, hn] at h
      rw [pipeline_step_norm_ok f now st launch pl hn]
      cases hk : getOpt pl "launch_id" with
      | none => exact ⟨.keyError, upsert_no_key f st pl hk⟩
      | some key =>
          simp only [hk] at h
          refine ⟨.storageError, ?_⟩
          rw [upsert_eq f st pl key hk, if_pos h]

theorem pipeline_step_of_ok (f : Faults) (now : String) (st : Storage)
    (launch : Obj) (h : step_fails f now launch = false) :
    ∃ pl key, process_launch_data now launch = .ok pl ∧
      getOpt pl "launch_id" = some key ∧ f.putFails pl = false ∧
      pipeline_step f now st launch =
        .ok ((if (if f.getFails key then false else (getItem st key).isSome)
              then "updated" else "created"), putItem st key pl) := by
  cases hn : process_launch_data now launch with
  | error e =>
      simp only [step_fails, hn] at h
      exact absurd h (by decide)
  | ok pl =>
      simp only [step_fails, hn] at h
      cases hk : getOpt pl "launch_id" with
      | none =>
          simp only [hk] at h
          exact absurd h (by decide)
      | some key =>
          simp only [hk] at h
          refine ⟨pl, key, rfl, hk, h, ?_⟩
          rw [pipeline_step_norm_ok f now st launch pl hn,
            upsert_eq f st pl key hk, if_neg (by simp [h])]

theorem pipeline_step_ok_elim (f : Faults) (now : String) (st : Storage)
    (launch : Obj) (r : String) (st1 : Storage)
    (h : pipeline_step f now st launch = .ok (r, st1)) :
    ∃ pl key, process_launch_data now launch = .ok pl ∧
      getOpt pl "launch_id" = some key ∧ f.putFails pl = false ∧
      st1 = putItem st key pl ∧ (r = "created" ∨ r = "updated") ∧
      step_fails f now launch = false := by
  cases hn : process_launch_data now launch with
  | error e => rw [pipeline_step_norm_err f now st launch e hn] at h; simp at h
  | ok pl =>
      rw [pipeline_step_norm_ok f now st launch pl hn] at h
      cases hk : getOpt pl "launch_id" with
      | none => rw [upsert_no_key f st pl hk] at h; simp at h
      | some key =>
          rw [upsert_eq f st pl key hk] at h
          by_cases hp : f.putFails pl
          · rw [if_pos hp] at h; simp at h
          · rw [if_neg hp] at h
            simp only [Except.ok.injEq, Prod.mk.injEq] at h
            refine ⟨pl, key, rfl, hk, by simp [hp], h.2.symm, ?_, ?_⟩
            · rcases h.1.symm with h1
              by_cases hcond : (if f.getFails key then false else (getItem st key).isSome) = true
              · right; rw [h1, if_pos hcond]
              · left; rw [h1, if_neg hcond]
            · simp only [step_fails, hn, hk]
              simpa using hp

theorem run_nil (f : Faults) (now : String) (st : Storage) :
    process_and_save_launches f now [] st = (⟨0, 0, 0, 0⟩, st) := rfl

theorem run_cons_err (f : Faults) (now : String) (st : Storage)
    (launch : Obj) (rest : List Obj) (e : PyErr)
    (h : pipeline_step f now st launch = .error e) :
    process_and_save_launches f now (launch :: rest) st =
      ({(process_and_save_launches f now rest st).1 with
          errors := (process_and_save_launches f now rest st).1.errors + 1},
       (process_and_save_launches f now rest st).2) := by
  simp [process_and_save_launches, h]

theorem run_cons_ok (f : Faults) (now : String) (st st1 : Storage)
    (launch : Obj) (rest : List Obj) (r : String)
    (h : pipeline_step f now st launch = .ok (r, st1)) :
    process_and_save_launches f now (launch :: rest) st =
      ({(process_and_save_launches f now rest st1).1 with
          processed := (process_and_save_launches f now rest st1).1.processed + 1,
          created := if r = "created"
            then (process_and_save_launches f now rest st1).1.created + 1
            else (process_and_save_launches f now rest st1).1.created,
          updated := if r = "updated"
            then (process_and_save_launches f now rest st1).1.updated + 1
            else (process_and_save_launches f now rest st1).1.updated},
       (process_and_save_launches f now rest st1).2) := by
  simp [process_and_save_launches, h]

theorem run_stats (f : Faults) (now : String) :
    ∀ (launches : List Obj) (st : Storage),
      (process_and_save_launches f now launches st).1.processed =
          (process_and_save_launches f now launches st).1.created +
            (process_and_save_launches f now launches st).1.updated ∧
        (process_and_save_launches f now launches st).1.errors =
          launches.countP (step_fails f now) ∧
        (process_and_save_launches f now launches st).1.processed +
            (process_and_save_launches f now launches st).1.errors =
          launches.length
  | [], st => by simp [run_nil]
  | launch :: rest, st => by
      by_cases hfail : step_fails f now launch = true
      · obtain ⟨e, he⟩ := pipeline_step_of_fails f now st launch hfail
        rw [run_cons_err f now st launch rest e he]
        obtain ⟨h1, h2, h3⟩ := run_stats f now rest st
        refine ⟨h1, ?_, ?_⟩
        · simp only [List.countP_cons, hfail, if_true]
          simpa using h2
        · simp only [List.length_cons]
          omega
      · replace hfail : step_fails f now launch = false := by simpa using hfail
        obtain ⟨pl, key, hpl, hkey, hput, hstep⟩ := pipeline_step_of_ok f now st launch hfail
        rw [run_cons_ok f now st (putItem st key pl) launch rest _ hstep]
        obtain ⟨h1, h2, h3⟩ := run_stats f now rest (putItem st key pl)
        have hro : (if (if f.getFails key then false else (getItem st key).isSome)
              then "updated" else "created") = "created" ∨
            (if (if f.getFails key then false else (getItem st key).isSome)
              then "updated" else "created") = "updated" := by
          by_cases hcond : (if f.getFails key then false else (getItem st key).isSome) = true
          · right; rw [if_pos hcond]
          · left; rw [if_neg hcond]
        refine ⟨?_, ?_, ?_⟩
        · rcases hro with h | h <;> rw [h]
          · rw [if_pos rfl, if_neg (by decide)]
            simpa using by omega
          · rw [if_neg (by decide), if_pos rfl]
            simpa using by omega
        · simp only [List.countP_cons, hfail, if_false]
          simpa using h2
        · simp only [List.length_cons]
          simp only [RunStats.mk.injEq] at *
          omega

theorem run_key_stable (f : Faults) (now : String) :
    ∀ (launches : List Obj) (st : Storage) (k : Json) (pl : Obj),
      getItem st k = some pl →
      (∀ l ∈ launches, step_fails f now l = true ∨
        ∀ pl2, process_launch_data now l = .ok pl2 →
          getOpt pl2 "launch_id" = some k → pl2 = pl) →
      getItem (process_and_save_launches f now launches st).2 k = some pl
  | [], _, _, _, hst, _ => by simpa [run_nil] using hst
  | launch :: rest, st, k, pl, hst, h => by
      by_cases hfail : step_fails f now launch = true
      · obtain ⟨e, he⟩ := pipeline_step_of_fails f now st launch hfail
        rw [run_cons_err f now st launch rest e he]
        exact run_key_stable f now rest st k pl hst
          (fun l hl => h l (List.mem_cons_of_mem _ hl))
      · replace hfail : step_fails f now launch = false := by simpa using hfail
        obtain ⟨pl2, key2, hpl2, hkey2, hput2, hstep⟩ :=
          pipeline_step_of_ok f now st launch hfail
        rw [run_cons_ok f now st (putItem st key2 pl2) launch rest _ hstep]
        refine run_key_stable f now rest (putItem st key2 pl2) k pl ?_
          (fun l hl => h l (List.mem_cons_of_mem _ hl))
        by_cases hk2 : key2 = k
        · subst hk2
          rcases h launch (List.mem_cons_self _ _) with hf | himp
          · rw [hfail] at hf
            exact absurd hf (by decide)
          · rw [getItem_putItem_self st key2 pl2, himp pl2 hpl2 hkey2]
        · rw [getItem_putItem_ne st key2 k pl2 (Ne.symm hk2)]
          exact hst

theorem run_writes_key (f : Faults) (now : String) :
    ∀ (launches : List Obj) (st : Storage) (l pl : Obj) (key : Json),
      l ∈ launches → process_launch_data now l = .ok pl →
      getOpt pl "launch_id" = some key → f.putFails pl = false →
      (∀ l2 ∈ launches, l2 = l ∨ step_fails f now l2 = true ∨
        ∀ pl2, process_launch_data now l2 = .ok pl2 →
          getOpt pl2 "launch_id" ≠ some key) →
      getItem (process_and_save_launches f now launches st).2 key = some pl
  | [], _, _, _, _, hmem, _, _, _, _ => absurd hmem (List.not_mem_nil _)
  | launch :: rest, st, l, pl, key, hmem, hpl, hkey, hput, hall => by
      by_cases hl : launch = l
      · subst hl
        have hsf : step_fails f now launch = false := by
          simp only [step_fails, hpl, hkey]
          exact hput
        obtain ⟨pl2, key2, hpl2, hkey2, hput2, hstep⟩ :=
          pipeline_step_of_ok f now st launch hsf
        rw [hpl] at hpl2
        injection hpl2 with hpl2
        subst hpl2
        rw [hkey] at hkey2
        injection hkey2 with hkey2
        subst hkey2
        rw [run_cons_ok f now st (putItem st key pl) launch rest _ hstep]
        refine run_key_stable f now rest (putItem st key pl) key pl
          (getItem_putItem_self st key pl) ?_
        intro l2 hl2
        rcases hall l2 (List.mem_cons_of_mem _ hl2) with h1 | h2 | h3
        · subst h1
          right
          intro pl2 hp _
          rw [hpl] at hp
          injection hp with hp
          exact hp.symm
        · left; exact h2
        · right
          intro pl2 hp hk2
          exact absurd hk2 (h3 pl2 hp)
      · have hmem2 : l ∈ rest := by
          rcases List.mem_cons.mp hmem with h1 | h1
          · exact absurd h1.symm hl
          · exact h1
        have hall2 : ∀ l2 ∈ rest, l2 = l ∨ step_fails f now l2 = true ∨
            ∀ pl2, process_launch_data now l2 = .ok pl2 →
              getOpt pl2 "launch_id" ≠ some key :=
          fun l2 hl2 => hall l2 (List.mem_cons_of_mem _ hl2)
        cases hstep : pipeline_step f now st launch with
        | error e =>
            rw [run_cons_err f now st launch rest e hstep]
            exact run_writes_key f now rest st l pl key hmem2 hpl hkey hput hall2
        | ok p =>
            obtain ⟨r, st1⟩ := p
            rw [run_cons_ok f now st st1 launch rest r hstep]
            exact run_writes_key f now rest st1 l pl key hmem2 hpl hkey hput hall2

/-! ### Helper lemmas: the summary sort -/

theorem insertDesc_perm (p : Int × Obj) :
    ∀ l : List (Int × Obj), (insertDesc p l).Perm (p :: l)
  | [] => List.Perm.refl _
  | q :: qs => by
      unfold insertDesc
      by_cases h : p.1 < q.1
      · rw [if_pos h]
        exact ((insertDesc_perm p qs).cons q).trans (List.Perm.swap p q qs)
      · rw [if_neg h]

theorem sortDesc_perm : ∀ l : List (Int × Obj), (sortDesc l).Perm l
  | [] => List.Perm.refl _
  | p :: ps => (insertDesc_perm p (sortDesc ps)).trans ((sortDesc_perm ps).cons p)

theorem insertDesc_pairwise (p : Int × Obj) :
    ∀ l : List (Int × Obj), List.Pairwise (fun a b => b.1 ≤ a.1) l →
      List.Pairwise (fun a b => b.1 ≤ a.1) (insertDesc p l)
  | [], _ => by simp [insertDesc]
  | q :: qs, h => by
      obtain ⟨hq, hqs⟩ := List.pairwise_cons.mp h
      unfold insertDesc
      by_cases hlt : p.1 < q.1
      · rw [if_pos hlt]
        refine List.pairwise_cons.mpr ⟨?_, insertDesc_pairwise p qs hqs⟩
        intro r hr
        rcases List.mem_cons.mp ((insertDesc_perm p qs).mem_iff.mp hr) with h1 | h2
        · rw [h1]; exact le_of_lt hlt
        · exact hq r h2
      · rw [if_neg hlt]
        refine List.pairwise_cons.mpr ⟨?_, h⟩
        intro r hr
        rcases List.mem_cons.mp hr with h1 | h2
        · rw [h1]; exact le_of_not_lt hlt
        · exact (hq r h2).trans (le_of_not_lt hlt)

theorem sortDesc_pairwise :
    ∀ l : List (Int × Obj), List.Pairwise (fun a b => b.1 ≤ a.1) (sortDesc l)
  | [] => List.Pairwise.nil
  | p :: ps => insertDesc_pairwise p (sortDesc ps) (sortDesc_pairwise ps)

theorem mapExcept_cons (g : α → Except PyErr β) (x : α) (xs : List α) :
    mapExcept g (x :: xs) =
      match g x with
      | .error e => .error e
      | .ok y =>
          match mapExcept g xs with
          | .error e => .error e
          | .ok ys => .ok (y :: ys) := by
  cases hg : g x with
  | error e => simp [mapExcept, hg, Bind.bind, Except.bind]
  | ok y =>
      cases hrest : mapExcept g xs with
      | error e => simp [mapExcept, hg, hrest, Bind.bind, Except.bind]
      | ok ys => simp [mapExcept, hg, hrest, Bind.bind, Except.bind, pure, Except.pure]

theorem mapExcept_snd (g : Obj → Except PyErr (Int × Obj))
    (hsnd : ∀ x p, g x = .ok p → p.2 = x) :
    ∀ (items : List Obj) (keyed : List (Int × Obj)),
      mapExcept g items = .ok keyed → keyed.map Prod.snd = items
  | [], keyed, h => by
      simp only [mapExcept] at h
      injection h with h
      rw [← h]
      rfl
  | x :: xs, keyed, h => by
      rw [mapExcept_cons] at h
      cases hg : g x with
      | error e =>
          simp only [hg] at h
          exact absurd h (by simp)
      | ok p =>
          simp only [hg] at h
          cases hrest : mapExcept g xs with
          | error e =>
              simp only [hrest] at h
              exact absurd h (by simp)
          | ok keyed2 =>
              simp only [hrest] at h
              injection h with h
              rw [← h]
              simp only [List.map_cons, List.cons.injEq]
              exact ⟨hsnd x p hg, mapExcept_snd g hsnd xs keyed2 hrest⟩

/-! ### Claims -/

/-- C4: for every record carrying a `launch_id`, the upsert performs an
existence read-check and then an unconditional write; a failed read-check
is treated as "not present" and reported `created` (fail-open); with a
working read-check the result is `created` exactly when no item was
found and `updated` otherwise; and a write failure propagates uncaught
to the caller. -/
theorem C4_upsert_fail_open (f : Faults) (st : Storage) (rec : Obj) (key : Json)
    (hkey : getOpt rec "launch_id" = some key) :
    (f.putFails rec = true →
      upsert_launch_to_dynamodb f st rec = .error .storageError) ∧
    (f.putFails rec = false → f.getFails key = true →
      upsert_launch_to_dynamodb f st rec = .ok ("created", putItem st key rec)) ∧
    (f.putFails rec = false → f.getFails key = false →
      upsert_launch_to_dynamodb f st rec =
        .ok ((if (getItem st key).isSome then "updated" else "created"),
          putItem st key rec)) := by
  refine ⟨?_, ?_, ?_⟩
  · intro hp
    rw [upsert_eq f st rec key hkey, if_pos hp]
  · intro hp hg
    rw [upsert_eq f st rec key hkey, if_neg (by simp [hp])]
    simp [hg]
  · intro hp hg
    rw [upsert_eq f st rec key hkey, if_neg (by simp [hp])]
    simp [hg]

/-- Witness for C4 at concrete inputs: a write fault propagates; a
read-check fault on a key that is present still reports `created`; a
fault-free upsert of a fresh key reports `created`. -/
theorem C4_witness :
    upsert_launch_to_dynamodb faultPut2 [] [("launch_id", Json.str "2")] =
      .error .storageError ∧
    upsert_launch_to_dynamodb faultGet
        [(Json.str "1", [("launch_id", Json.str "1")])] [("launch_id", Json.str "1")] =
      .ok ("created", putItem [(Json.str "1", [("launch_id", Json.str "1")])]
        (Json.str "1") [("launch_id", Json.str "1")]) ∧
    upsert_launch_to_dynamodb noFaults [] [("launch_id", Json.str "1")] =
      .ok ((if (getItem ([] : Storage) (Json.str "1")).isSome then "updated" else "created"),
        putItem [] (Json.str "1") [("launch_id", Json.str "1")]) :=
  ⟨(C4_upsert_fail_open faultPut2 [] [("launch_id", Json.str "2")] (Json.str "2")
      (by decide)).1 (by decide),
   (C4_upsert_fail_open faultGet [(Json.str "1", [("launch_id", Json.str "1")])]
      [("launch_id", Json.str "1")] (Json.str "1") (by decide)).2.1 (by decide) (by decide),
   (C4_upsert_fail_open noFaults [] [("launch_id", Json.str "1")] (Json.str "1")
      (by decide)).2.2 (by decide) (by decide)⟩

/-- C5: the classifier returns one of upcoming/success/failed/unknown by
first-match priority: a `True` upcoming flag wins regardless of the
success flag; otherwise exactly-`True` success gives `success`,
exactly-`False` gives `failed`, and an absent or `None` success flag
gives `unknown`. -/
theorem C5_classifier_priority (raw : Obj) :
    (determine_launch_status raw = "upcoming" ∨ determine_launch_status raw = "success" ∨
      determine_launch_status raw = "failed" ∨ determine_launch_status raw = "unknown") ∧
    (getOpt raw "upcoming" = some (.bool true) → determine_launch_status raw = "upcoming") ∧
    (truthy (getD raw "upcoming" (.bool false)) = false →
      (getOpt raw "launch_success" = some (.bool true) →
        determine_launch_status raw = "success") ∧
      (getOpt raw "launch_success" = some (.bool false) →
        determine_launch_status raw = "failed") ∧
      ((getOpt raw "launch_success" = none ∨ getOpt raw "launch_success" = some .null) →
        determine_launch_status raw = "unknown")) := by
  refine ⟨?_, ?_, ?_⟩
  · unfold determine_launch_status
    by_cases h1 : truthy (getD raw "upcoming" (.bool false)) = true
    · rw [if_pos h1]; exact Or.inl rfl
    · rw [if_neg h1]
      by_cases h2 : getD raw "launch_success" .null = .bool true
      · rw [if_pos h2]; exact Or.inr (Or.inl rfl)
      · rw [if_neg h2]
        by_cases h3 : getD raw "launch_success" .null = .bool false
        · rw [if_pos h3]; exact Or.inr (Or.inr (Or.inl rfl))
        · rw [if_neg h3]; exact Or.inr (Or.inr (Or.inr rfl))
  · intro h
    simp [determine_launch_status, getD, h, truthy]
  · intro hup
    have hup2 : truthy ((getOpt raw "upcoming").getD (Json.bool false)) = false := hup
    refine ⟨?_, ?_, ?_⟩
    · intro h
      simp [determine_launch_status, getD, h, hup2]
    · intro h
      simp [determine_launch_status, getD, h, hup2]
    · intro h
      rcases h with h | h <;> simp [determine_launch_status, getD, h, hup2]

/-- Witness for C5 at concrete inputs: a record marked both upcoming and
successful classifies `upcoming`; the three success-flag cases behave as
stated. -/
theorem C5_witness :
    determine_launch_status [("upcoming", Json.bool true), ("launch_success", Json.bool true)] =
      "upcoming" ∧
    determine_launch_status [("launch_success", Json.bool true)] = "success" ∧
    determine_launch_status [("launch_success", Json.bool false)] = "failed" ∧
    determine_launch_status [] = "unknown" ∧
    determine_launch_status [("launch_success", Json.null)] = "unknown" :=
  ⟨(C5_classifier_priority _).2.1 (by decide),
   ((C5_classifier_priority _).2.2 (by decide)).1 (by decide),
   ((C5_classifier_priority _).2.2 (by decide)).2.1 (by decide),
   ((C5_classifier_priority [] ).2.2 (by decide)).2.2 (Or.inl (by decide)),
   ((C5_classifier_priority _).2.2 (by decide)).2.2 (Or.inr (by decide))⟩

/-- C6: when the Source Fetcher returns an empty sequence, the handler
short-circuits without touching storage and returns statusCode 500 with
the fixed message "Error obteniendo datos de SpaceX". -/
theorem C6_empty_fetch_500 (f : Faults) (now : String) (event : Obj) (st : Storage) :
    (lambda_handler f now [] event st).1.statusCode = 500 ∧
    (lambda_handler f now [] event st).1.body = .str "Error obteniendo datos de SpaceX" ∧
    (lambda_handler f now [] event st).2 = st := by
  refine ⟨rfl, rfl, rfl⟩

/-- C7: upserting a fresh key reports `created`; upserting the same
record again reports `updated` and leaves storage with exactly one item
for that key. -/
theorem C7_upsert_idempotent (f : Faults) (st : Storage) (rec : Obj) (key : Json)
    (hkey : getOpt rec "launch_id" = some key)
    (hget : f.getFails key = false) (hput : f.putFails rec = false)
    (habsent : st.filter (fun kv => kv.1 = key) = []) :
    upsert_launch_to_dynamodb f st rec = .ok ("created", putItem st key rec) ∧
    upsert_launch_to_dynamodb f (putItem st key rec) rec =
      .ok ("updated", putItem (putItem st key rec) key rec) ∧
    (putItem (putItem st key rec) key rec).filter (fun kv => kv.1 = key) =
      [(key, rec)] := by
  have hnone : getItem st key = none := getItem_of_filter_nil st key habsent
  refine ⟨?_, ?_, ?_⟩
  · rw [upsert_eq f st rec key hkey, if_neg (by simp [hput])]
    simp [hget, hnone]
  · rw [upsert_eq f (putItem st key rec) rec key hkey, if_neg (by simp [hput])]
    simp [hget, getItem_putItem_self]
  · exact filter_putItem_single (putItem st key rec) key rec rec
      (filter_putItem_absent st key rec habsent)

/-- Witness for C7 at a concrete record and an empty table. -/
theorem C7_witness :
    upsert_launch_to_dynamodb noFaults [] [("launch_id", Json.str "7")] =
      .ok ("created", putItem [] (Json.str "7") [("launch_id", Json.str "7")]) ∧
    upsert_launch_to_dynamodb noFaults (putItem [] (Json.str "7") [("launch_id", Json.str "7")])
        [("launch_id", Json.str "7")] =
      .ok ("updated", putItem (putItem [] (Json.str "7") [("launch_id", Json.str "7")])
        (Json.str "7") [("launch_id", Json.str "7")]) ∧
    (putItem (putItem [] (Json.str "7") [("launch_id", Json.str "7")])
        (Json.str "7") [("launch_id", Json.str "7")]).filter
        (fun kv => kv.1 = Json.str "7") = [(Json.str "7", [("launch_id", Json.str "7")])] :=
  C7_upsert_idempotent noFaults [] [("launch_id", Json.str "7")] (Json.str "7")
    (by decide) (by decide) (by decide) (by decide)

/-- C8: for every input list, the Orchestrator's counters satisfy
processed = created + updated, and errors are counted separately so that
processed + errors equals the number of input records. -/
theorem C8_counters (f : Faults) (now : String) (launches : List Obj) (st : Storage) :
    (process_and_save_launches f now launches st).1.processed =
      (process_and_save_launches f now launches st).1.created +
        (process_and_save_launches f now launches st).1.updated ∧
    (process_and_save_launches f now launches st).1.processed +
        (process_and_save_launches f now launches st).1.errors = launches.length :=
  ⟨(run_stats f now launches st).1, (run_stats f now launches st).2.2⟩

/-! ### Helper lemmas: the normalizer -/

theorem process_launch_data_launch_id (now : String) (raw pl : Obj)
    (hok : process_launch_data now raw = .ok pl) :
    getOpt pl "launch_id" = some (.str (pyStr (getD raw "flight_number" (.str "")))) := by
  simp only [process_launch_data, Bind.bind, Except.bind, pure, Except.pure] at hok
  repeat' split at hok
  all_goals try exact Except.noConfusion hok
  injection hok with hok
  rw [← hok]
  rfl

theorem process_launch_data_fields (now : String) (raw pl : Obj)
    (hok : process_launch_data now raw = .ok pl) :
    getOpt pl "mission_name" = some (getD raw "mission_name" (.str "Unknown Mission")) ∧
    getOpt pl "launch_date" = some (getD raw "launch_date_utc" (.str "")) ∧
    getOpt pl "launch_date_local" = some (getD raw "launch_date_local" (.str "")) ∧
    getOpt pl "upcoming" = some (getD raw "upcoming" (.bool false)) ∧
    getOpt pl "details" = some (getD raw "details" (.str "")) ∧
    getOpt pl "status" = some (.str (determine_launch_status raw)) ∧
    getOpt pl "launch_success" = some (getD raw "launch_success" .null) ∧
    (getOpt raw "rocket" = none → getOpt pl "rocket_name" = some (.str "Unknown")) := by
  simp only [process_launch_data, Bind.bind, Except.bind, pure, Except.pure] at hok
  repeat' split at hok
  all_goals try exact Except.noConfusion hok
  injection hok with hok
  subst hok
  refine ⟨rfl, rfl, rfl, rfl, rfl, rfl, rfl, ?_⟩
  intro habs
  have hrd : getD raw "rocket" (.obj []) = .obj [] := by simp [getD, habs]
  simp_all [hrd, jgetD, getD, getOpt, List.find?, convert_to_dynamodb_format]

theorem mapExcept_payloads_ok :
    ∀ ps : List Json, (∀ p ∈ ps, ∃ pobj, p = Json.obj pobj) →
      ∃ out, mapExcept process_payload ps = .ok out
  | [], _ => ⟨[], rfl⟩
  | p :: ps, h => by
      obtain ⟨pobj, hp⟩ := h p (List.mem_cons_self _ _)
      obtain ⟨out, hout⟩ :=
        mapExcept_payloads_ok ps (fun q hq => h q (List.mem_cons_of_mem _ hq))
      subst hp
      simp only [mapExcept_cons, hout]
      exact ⟨_, rfl⟩

/-! ### C9 and C3 -/

/-- C9: a raw record with no flight number normalizes to `launch_id`
equal to the empty string, so any two such records in a batch share the
storage key `""` and the later upsert overwrites the earlier one. -/
theorem C9_empty_flight_number_key (now : String) (raw1 raw2 pl1 pl2 : Obj) (st : Storage)
    (h1 : getOpt raw1 "flight_number" = none)
    (h2 : getOpt raw2 "flight_number" = none)
    (hok1 : process_launch_data now raw1 = .ok pl1)
    (hok2 : process_launch_data now raw2 = .ok pl2) :
    getOpt pl1 "launch_id" = some (.str "") ∧
    getOpt pl2 "launch_id" = some (.str "") ∧
    (∃ r1, upsert_launch_to_dynamodb noFaults st pl1 =
      .ok (r1, putItem st (.str "") pl1)) ∧
    upsert_launch_to_dynamodb noFaults (putItem st (.str "") pl1) pl2 =
      .ok ("updated", putItem (putItem st (.str "") pl1) (.str "") pl2) ∧
    getItem (putItem (putItem st (.str "") pl1) (.str "") pl2) (.str "") = some pl2 := by
  have k1 : getOpt pl1 "launch_id" = some (.str "") := by
    simpa [getD, h1, pyStr] using process_launch_data_launch_id now raw1 pl1 hok1
  have k2 : getOpt pl2 "launch_id" = some (.str "") := by
    simpa [getD, h2, pyStr] using process_launch_data_launch_id now raw2 pl2 hok2
  refine ⟨k1, k2, ?_, ?_, getItem_putItem_self _ _ _⟩
  · simp only [upsert_eq noFaults st pl1 (.str "") k1]
    exact ⟨_, by rfl⟩
  · rw [upsert_eq noFaults (putItem st (.str "") pl1) pl2 (.str "") k2]
    simp [noFaults, getItem_putItem_self]

/-- Witness for C9: the empty record and a one-field record, upserted
into the empty table. -/
theorem C9_witness :
    getOpt itemNoFlight1 "launch_id" = some (.str "") ∧
    getOpt itemNoFlight2 "launch_id" = some (.str "") ∧
    (∃ r1, upsert_launch_to_dynamodb noFaults [] itemNoFlight1 =
      .ok (r1, putItem [] (.str "") itemNoFlight1)) ∧
    upsert_launch_to_dynamodb noFaults (putItem [] (.str "") itemNoFlight1) itemNoFlight2 =
      .ok ("updated", putItem (putItem [] (.str "") itemNoFlight1) (.str "") itemNoFlight2) ∧
    getItem (putItem (putItem [] (.str "") itemNoFlight1) (.str "") itemNoFlight2) (.str "") =
      some itemNoFlight2 :=
  C9_empty_flight_number_key "T" [] rawNoFlight2 itemNoFlight1 itemNoFlight2 []
    (by decide) (by decide) (by decide) (by decide)

/-- C3, counterexample: the claim says `normalize` is total on every
untyped mapping, but a record whose `rocket` field is a number makes the
nested `.get` raise `AttributeError`. -/
theorem C3_counterexample :
    process_launch_data "T" [("rocket", Json.int 5)] = .error .attributeError := by decide

/-- C3, amended: `normalize` succeeds — with the documented defaults for
absent fields — on every raw record whose `rocket` and `launch_site`
fields, when present, are dictionaries and whose `payloads` field, when
present, is a list of dictionaries. -/
theorem C3_normalize_total_amended (now : String) (raw : Obj)
    (robj sobj : List (String × Json)) (ps : List Json)
    (hrocket : getD raw "rocket" (.obj []) = .obj robj)
    (hsite : getD raw "launch_site" (.obj []) = .obj sobj)
    (hpay : getD raw "payloads" (.arr []) = .arr ps)
    (hps : ∀ p ∈ ps, ∃ pobj, p = Json.obj pobj) :
    ∃ pl, process_launch_data now raw = .ok pl ∧
      getOpt pl "mission_name" = some (getD raw "mission_name" (.str "Unknown Mission")) ∧
      (getOpt raw "rocket" = none → getOpt pl "rocket_name" = some (.str "Unknown")) ∧
      getOpt pl "launch_date" = some (getD raw "launch_date_utc" (.str "")) ∧
      getOpt pl "launch_date_local" = some (getD raw "launch_date_local" (.str "")) ∧
      getOpt pl "upcoming" = some (getD raw "upcoming" (.bool false)) ∧
      getOpt pl "details" = some (getD raw "details" (.str "")) := by
  obtain ⟨out, hout⟩ := mapExcept_payloads_ok ps hps
  have h2 : process_payloads (getD raw "payloads" (.arr [])) = .ok (.arr out) := by
    rw [hpay]
    simp [process_payloads, pyIter, Bind.bind, Except.bind, hout, pure, Except.pure]
  have hmain : process_launch_data now raw = .ok (convert_to_dynamodb_format
      [("launch_id", .str (pyStr (getD raw "flight_number" (.str "")))),
       ("flight_number", getD raw "flight_number" .null),
       ("mission_name", getD raw "mission_name" (.str "Unknown Mission")),
       ("rocket_name", getD robj "rocket_name" (.str "Unknown")),
       ("launch_date", getD raw "launch_date_utc" (.str "")),
       ("launch_date_local", getD raw "launch_date_local" (.str "")),
       ("status", .str (determine_launch_status raw)),
       ("launch_success", getD raw "launch_success" .null),
       ("upcoming", getD raw "upcoming" (.bool false)),
       ("details", getD raw "details" (.str "")),
       ("rocket", .obj [("rocket_id", getD robj "rocket_id" (.str "")),
                        ("rocket_name", getD robj "rocket_name" (.str "")),
                        ("rocket_type", getD robj "rocket_type" (.str ""))]),
       ("payloads", .arr out),
       ("last_updated", .str now),
       ("api_version", .str "v3")]) := by
    simp only [process_launch_data, Bind.bind, Except.bind, pure, Except.pure,
      hrocket, hsite, h2, jgetD]
  obtain ⟨f1, f2, f3, f4, f5, _, _, f8⟩ := process_launch_data_fields now raw _ hmain
  exact ⟨_, hmain, f1, f8, f2, f3, f4, f5⟩

/-- Witness for the amended C3 at the empty raw record: normalization
succeeds and all documented defaults appear. -/
theorem C3_witness :
    ∃ pl, process_launch_data "T" [] = .ok pl ∧
      getOpt pl "mission_name" = some (getD [] "mission_name" (.str "Unknown Mission")) ∧
      (getOpt [] "rocket" = none → getOpt pl "rocket_name" = some (.str "Unknown")) ∧
      getOpt pl "launch_date" = some (getD [] "launch_date_utc" (.str "")) ∧
      getOpt pl "launch_date_local" = some (getD [] "launch_date_local" (.str "")) ∧
      getOpt pl "upcoming" = some (getD [] "upcoming" (.bool false)) ∧
      getOpt pl "details" = some (getD [] "details" (.str "")) :=
  C3_normalize_total_amended "T" [] [] [] [] (by decide) (by decide) (by decide)
    (fun p hp => absurd hp (List.not_mem_nil p))

/-- C2: when exactly one record of a batch fails its storage write, the
Orchestrator catches the failure, counts one error, continues, returns
processed = N−1, and all other records end up in storage under their
keys. -/
theorem C2_batch_isolation (f : Faults) (now : String) (st : Storage)
    (pre post : List Obj) (bad : Obj)
    (hgood : ∀ l ∈ pre ++ post, step_fails f now l = false)
    (hbad : step_fails f now bad = true)
    (hkeys : (pre ++ post).Pairwise (fun a b => norm_key now a ≠ norm_key now b)) :
    (process_and_save_launches f now (pre ++ bad :: post) st).1.processed =
        pre.length + post.length ∧
    (process_and_save_launches f now (pre ++ bad :: post) st).1.errors = 1 ∧
    ∀ l ∈ pre ++ post, ∃ pl key, process_launch_data now l = .ok pl ∧
      getOpt pl "launch_id" = some key ∧
      getItem (process_and_save_launches f now (pre ++ bad :: post) st).2 key = some pl := by
  obtain ⟨h1, h2, h3⟩ := run_stats f now (pre ++ bad :: post) st
  have hcpre : pre.countP (step_fails f now) = 0 :=
    List.countP_eq_zero.mpr (fun a ha => by
      simp [hgood a (List.mem_append_left _ ha)])
  have hcpost : post.countP (step_fails f now) = 0 :=
    List.countP_eq_zero.mpr (fun a ha => by
      simp [hgood a (List.mem_append_right _ ha)])
  have herr : (process_and_save_launches f now (pre ++ bad :: post) st).1.errors = 1 := by
    rw [h2, List.countP_append, List.countP_cons, hcpre, hcpost, hbad]
    simp
  refine ⟨?_, herr, ?_⟩
  · rw [herr] at h3
    simp only [List.length_append, List.length_cons] at h3
    omega
  · intro l hl
    have hsf : step_fails f now l = false := hgood l hl
    obtain ⟨pl, key, hpl, hkey, hput, _⟩ := pipeline_step_of_ok f now st l hsf
    refine ⟨pl, key, hpl, hkey, ?_⟩
    have e1 : norm_key now l = some key := by simp [norm_key, hpl, hkey]
    refine run_writes_key f now (pre ++ bad :: post) st l pl key ?_ hpl hkey hput ?_
    · rcases List.mem_append.mp hl with h | h
      · exact List.mem_append.mpr (Or.inl h)
      · exact List.mem_append.mpr (Or.inr (List.mem_cons_of_mem _ h))
    · intro l2 hl2
      have hdiff : l2 ∈ pre ++ post → l2 ≠ l →
          ∀ pl2, process_launch_data now l2 = .ok pl2 →
            getOpt pl2 "launch_id" ≠ some key := by
        intro hmem2 hne pl2 hp2 hk2
        have hsym : Symmetric (fun a b : Obj => norm_key now a ≠ norm_key now b) :=
          fun _ _ hy => Ne.symm hy
        have hnk : norm_key now l2 ≠ norm_key now l :=
          hkeys.forall hsym hmem2 hl hne
        have e2 : norm_key now l2 = getOpt pl2 "launch_id" := by simp [norm_key, hp2]
        exact hnk (e2.trans (hk2.trans e1.symm))
      rcases List.mem_append.mp hl2 with h | h
      · by_cases heq : l2 = l
        · exact Or.inl heq
        · exact Or.inr (Or.inr (hdiff (List.mem_append_left _ h) heq))
      · rcases List.mem_cons.mp h with h4 | h4
        · exact Or.inr (Or.inl (h4 ▸ hbad))
        · by_cases heq : l2 = l
          · exact Or.inl heq
          · exact Or.inr (Or.inr (hdiff (List.mem_append_right _ h4) heq))

/-- Witness for C2: three raw records with flight numbers 1, 2, 3, where
only the write of record 2 is faulted. -/
theorem C2_witness :
    (process_and_save_launches faultPut2 "T"
        ([rawFlight 1] ++ rawFlight 2 :: [rawFlight 3]) []).1.processed =
      [rawFlight 1].length + [rawFlight 3].length ∧
    (process_and_save_launches faultPut2 "T"
        ([rawFlight 1] ++ rawFlight 2 :: [rawFlight 3]) []).1.errors = 1 ∧
    ∀ l ∈ [rawFlight 1] ++ [rawFlight 3], ∃ pl key,
      process_launch_data "T" l = .ok pl ∧
      getOpt pl "launch_id" = some key ∧
      getItem (process_and_save_launches faultPut2 "T"
        ([rawFlight 1] ++ rawFlight 2 :: [rawFlight 3]) []).2 key = some pl :=
  C2_batch_isolation faultPut2 "T" [] [rawFlight 1] [rawFlight 3] (rawFlight 2)
    (by decide) (by decide) (by decide)

/-- C10: on a manual invocation with a non-empty fetch, a scan failure
never produces a 500: the latest-launches summary degrades to the empty
list, the table statistics degrade to the empty dictionary, and the
handler still returns statusCode 200. -/
theorem C10_scan_failure_degrades (f : Faults) (now : String) (spacex_data : List Obj)
    (event : Obj) (st : Storage)
    (hscan : f.scanFails = true) (hmanual : is_manual_test event = true)
    (hnonempty : spacex_data ≠ []) :
    (lambda_handler f now spacex_data event st).1.statusCode = 200 ∧
    jfield (lambda_handler f now spacex_data event st).1.body "details" =
      some (.obj [("latest_launches", .arr []), ("table_stats", .obj [])]) := by
  have hne : spacex_data.isEmpty = false := by
    cases spacex_data with
    | nil => exact absurd rfl hnonempty
    | cons a l => rfl
  rcases hrun : process_and_save_launches f now spacex_data st with ⟨result, st1⟩
  constructor
  · simp [lambda_handler, hne, hrun, create_response]
  · simp [lambda_handler, hne, hmanual, hrun, get_latest_launches_summary,
      get_table_stats, hscan, create_response, jfield, getOpt, List.find?]

/-- Witness for C10: one empty raw record, an event with a body, the
empty table and an always-failing scan. -/
theorem C10_witness :
    (lambda_handler faultScan "T" [[]] [("body", Json.null)] []).1.statusCode = 200 ∧
    jfield (lambda_handler faultScan "T" [[]] [("body", Json.null)] []).1.body "details" =
      some (.obj [("latest_launches", .arr []), ("table_stats", .obj [])]) :=
  C10_scan_failure_degrades faultScan "T" [[]] [("body", Json.null)] []
    (by decide) (by decide) (by decide)

/-- C1, counterexample: in a six-item table whose sixth item in scan
order holds the greatest flight number (100), a manual invocation
returns latest_launches listing flights 5,4,3,2,1 — the record with the
greatest flight number of all stored records is absent, because the
summary scans with Limit=5 instead of ranking the whole table. -/
theorem C1_counterexample :
    (lambda_handler noFaults "T" [rawFlight 1] [("body", Json.str "test")] stC1).1.statusCode =
      200 ∧
    (jfield (lambda_handler noFaults "T" [rawFlight 1]
        [("body", Json.str "test")] stC1).1.body "details").bind
        (fun d => jfield d "latest_launches") =
      some (.arr ((get_latest_launches_summary noFaults stC1).map Json.obj)) ∧
    (get_latest_launches_summary noFaults stC1).map
        (fun o => getD o "flight_number" Json.null) =
      [.str "5", .str "4", .str "3", .str "2", .str "1"] ∧
    stC1.map (fun kv => getD kv.2 "flight_number" Json.null) =
      [.int 1, .int 2, .int 3, .int 4, .int 5, .int 100] := by decide

/-- C1, amended: the summary is built from only the first five items in
scan order: their keyed pairing is sorted descending by flight number
(an absent or falsy flight number sorts as 0, and a truthy non-numeric
one makes the whole summary degrade to the empty list), and each sorted
item is projected to a summary entry. -/
theorem C1_latest_launches_amended (f : Faults) (st : Storage) (keyed : List (Int × Obj))
    (hscan : f.scanFails = false)
    (hkeys : mapExcept (fun x => (flight_sort_key x).map (fun k => (k, x)))
        ((st.take 5).map Prod.snd) = .ok keyed) :
    keyed.map Prod.snd = (st.take 5).map Prod.snd ∧
    (sortDesc keyed).Perm keyed ∧
    List.Pairwise (fun p q => q.1 ≤ p.1) (sortDesc keyed) ∧
    get_latest_launches_summary f st = (sortDesc keyed).map (fun p => summary_entry p.2) := by
  have hsnd : ∀ x p, (flight_sort_key x).map (fun k => (k, x)) = .ok p → p.2 = x := by
    intro x p hp
    cases hk : flight_sort_key x with
    | error e =>
        rw [hk] at hp
        simp only [Except.map] at hp
        exact absurd hp (by simp)
    | ok k =>
        rw [hk] at hp
        simp only [Except.map] at hp
        injection hp with hp
        rw [← hp]
  have h1 := mapExcept_snd _ hsnd _ _ hkeys
  refine ⟨h1, sortDesc_perm keyed, sortDesc_pairwise keyed, ?_⟩
  have hlen : ((sortDesc keyed).map (fun p => p.2)).length ≤ 5 := by
    rw [List.length_map, (sortDesc_perm keyed).length_eq]
    have hl2 := congrArg List.length h1
    rw [List.length_map, List.length_map, List.length_take] at hl2
    omega
  unfold get_latest_launches_summary
  simp only [hscan, Bool.false_eq_true, if_false, hkeys]
  rw [List.take_of_length_le hlen, List.map_map]
  rfl

/-- Witness for the amended C1 at the concrete six-item table. -/
theorem C1_witness :
    keyedC1.map Prod.snd = (stC1.take 5).map Prod.snd ∧
    (sortDesc keyedC1).Perm keyedC1 ∧
    List.Pairwise (fun p q => q.1 ≤ p.1) (sortDesc keyedC1) ∧
    get_latest_launches_summary noFaults stC1 =
      (sortDesc keyedC1).map (fun p => summary_entry p.2) :=
  C1_latest_launches_amended noFaults stC1 keyedC1 (by decide) (by decide)
